import Mathlib

/-!
# asdf core (Go): install paths, shims and the plugin registry

A shallow embedding of `internal/installs/installs.go` and of the plugin
commands of `cmd/main.go`, together with the pieces of the Go standard library
they call (`path/filepath`, `os`), and models of the `shims`, `plugins` and
`toolversions` packages.

Go strings are embedded as Lean `String`s; the separators and markers the code
looks at are ASCII, so working on characters agrees with working on bytes for
every valid UTF-8 string.
-/

set_option autoImplicit false

namespace Asdf

/-! ## `path/filepath` (Unix) -/

namespace filepath

/-- The path separator of `path/filepath` on Unix. -/
def Separator : Char := '/'

/-- The test `os.IsPathSeparator`. -/
def IsPathSeparator (c : Char) : Bool := c == Separator

/-- The backtracking loop of `Clean` for a `..` element, entered after
`out.w--`: `dropped` is the byte `out.index(out.w)` just cut off and the buffer
is kept reversed (last written byte first).  While `out.w > dotdot` and the byte
at `out.w` is not a separator, one more byte is cut off. -/
def backtrack (dotdot : Nat) : Char → List Char → List Char
  | _, [] => []
  | dropped, c :: rest =>
    if (c :: rest).length > dotdot && !IsPathSeparator dropped then backtrack dotdot c rest
    else c :: rest

/-- The main loop of `filepath.Clean`.  `rest` is `path[r:]`, `out` is the
output buffer reversed (so `out.length` is `out.w`), `dotdot` the index up to
which the buffer may not be cut back.  Every turn consumes at least one byte of
`rest`, so `fuel = rest.length` turns are always enough. -/
def cleanLoop (rooted : Bool) : Nat → List Char → List Char → Nat → List Char
  | 0, _, out, _ => out
  | _ + 1, [], out, _ => out
  | fuel + 1, c :: rest, out, dotdot =>
    if IsPathSeparator c then
      -- empty path element
      cleanLoop rooted fuel rest out dotdot
    else if c == '.' && (rest.isEmpty || (rest.head?.map IsPathSeparator).getD false) then
      -- . element
      cleanLoop rooted fuel rest out dotdot
    else if c == '.' && rest.head? == some '.' &&
        ((rest.drop 1).isEmpty || (((rest.drop 1).head?).map IsPathSeparator).getD false) then
      -- .. element: remove to last separator
      if out.length > dotdot then
        -- can backtrack
        cleanLoop rooted fuel (rest.drop 1) (backtrack dotdot (out.headD Separator) (out.drop 1))
          dotdot
      else if !rooted then
        -- cannot backtrack, but not rooted, so append .. element
        let out1 := if out.length > 0 then Separator :: out else out
        let out2 := '.' :: '.' :: out1
        cleanLoop rooted fuel (rest.drop 1) out2 out2.length
      else
        cleanLoop rooted fuel (rest.drop 1) out dotdot
    else
      -- real path element: add slash if needed, then copy the element
      let out1 :=
        if (rooted && out.length != 1) || (!rooted && out.length != 0) then Separator :: out
        else out
      let elt := (c :: rest).takeWhile (fun x => !IsPathSeparator x)
      cleanLoop rooted fuel ((c :: rest).dropWhile (fun x => !IsPathSeparator x))
        (elt.reverse ++ out1) dotdot

/-- The function `filepath.Clean` on the bytes of a path. -/
def cleanChars (path : List Char) : List Char :=
  match path with
  | [] => ['.']
  | c :: _ =>
    let rooted := IsPathSeparator c
    let out :=
      if rooted then cleanLoop rooted path.length (path.drop 1) [Separator] 1
      else cleanLoop rooted path.length path [] 0
    -- Turn empty string into "."
    if out.isEmpty then ['.'] else out.reverse

/-- The function `filepath.Clean`. -/
def Clean (path : String) : String := String.mk (cleanChars path.data)

/-- The function `strings.Join(elem, "/")` on byte lists. -/
def joinSep : List (List Char) → List Char
  | [] => []
  | [e] => e
  | e :: es => e ++ Separator :: joinSep es

/-- The function `filepath.Join` (Unix): the elements from the first
non-empty one on are joined by the separator and the result is cleaned; when
every element is empty the result is the empty string. -/
def joinChars : List (List Char) → List Char
  | [] => []
  | e :: es => if e != [] then cleanChars (joinSep (e :: es)) else joinChars es

/-- The function `filepath.Join`. -/
def Join (elem : List String) : String := String.mk (joinChars (elem.map String.data))

/-- The loop of `filepath.Base` that strips trailing slashes, on the reversed
path. -/
def stripTrailing : List Char → List Char
  | [] => []
  | c :: rest => if IsPathSeparator c then stripTrailing rest else c :: rest

/-- The function `filepath.Base` on bytes: the last element of the path.
Trailing separators are removed first; an empty path gives `.`, a path of
separators only gives a single separator. -/
def baseChars (path : List Char) : List Char :=
  if path.isEmpty then ['.']
  else
    let stripped := stripTrailing path.reverse
    -- find the last element
    let last := (stripped.takeWhile (fun x => !IsPathSeparator x)).reverse
    -- if empty now, it had only slashes
    if last.isEmpty then [Separator] else last

/-- The function `filepath.Base`. -/
def Base (path : String) : String := String.mk (baseChars path.data)

end filepath

/-! ## Go errors and the `os` package -/

/-- Go error values, as far as `os` tells them apart: a `syscall.Errno`, the
wrappers `*fs.PathError`, `*os.LinkError` and `*os.SyscallError` around an
inner error, the sentinel `fs.ErrNotExist`, and any other error value. -/
inductive GoError where
  | Errno (code : Nat)
  | PathError (Op Path : String) (Err : GoError)
  | LinkError (Op Old New : String) (Err : GoError)
  | SyscallError (Syscall : String) (Err : GoError)
  | ErrNotExist
  | Other (msg : String)
  deriving DecidableEq, Repr

namespace syscall

/-- The errno `ENOENT`: no such file or directory. -/
def ENOENT : Nat := 2

/-- The errno `EACCES`: permission denied. -/
def EACCES : Nat := 13

end syscall

namespace os

/-- The function `underlyingError` of `os`: one layer of `*PathError`,
`*LinkError` or `*SyscallError` is taken off, nothing else. -/
def underlyingError : GoError → GoError
  | .PathError _ _ err => err
  | .LinkError _ _ _ err => err
  | .SyscallError _ err => err
  | err => err

/-- The function `os.IsNotExist`, on an `error` that may be nil (`none`): the
underlying error is the sentinel `ErrNotExist`, or it is an errno whose
`Is(ErrNotExist)` holds, that is `ENOENT`. -/
def IsNotExist (err : Option GoError) : Bool :=
  match err with
  | none => false
  | some e =>
    match underlyingError e with
    | .ErrNotExist => true
    | .Errno code => code == syscall.ENOENT
    | _ => false

/-- A directory entry as `os.ReadDir` returns it, reduced to what the callers
read: `Name()` and `IsDir()`. -/
structure DirEntry where
  Name : String
  IsDir : Bool
  deriving DecidableEq, Repr

end os

/-- The type assertion `err.(*fs.PathError)`: it looks at the dynamic type of
the error value itself and does not unwrap. -/
def GoError.isPathError : GoError → Bool
  | .PathError _ _ _ => true
  | _ => false

/-! ## Collaborating packages of the repository -/

namespace config

/-- Modelled from the spec: the struct `config.Config` (package `config` is not
among the sources): `{ DataDir: string }`, the one field the core reads. -/
structure Config where
  DataDir : String
  deriving DecidableEq, Repr

end config

namespace plugins

/-- Modelled from the spec: the struct `plugins.Plugin` (plugins.go is not
among the sources), with the fields of section 3 that callers and tests read:
the name, the plugin directory, and the remote URL and checked-out ref, which
stay at the zero value unless asked for. -/
structure Plugin where
  Name : String
  Dir : String
  URL : String := ""
  Ref : String := ""
  deriving DecidableEq, Repr

end plugins

namespace data

/-- Modelled from the spec: `data.InstallDirectory` (package `internal/data`
is not among the sources): `InstallDirectory(dataDir, pluginName) =
dataDir/installs/pluginName`, as a path join. -/
def InstallDirectory (dataDir pluginName : String) : String :=
  filepath.Join [dataDir, "installs", pluginName]

/-- Modelled from the spec: `data.DownloadDirectory` (package `internal/data`
is not among the sources): analogous to `InstallDirectory`, under `downloads/`. -/
def DownloadDirectory (dataDir pluginName : String) : String :=
  filepath.Join [dataDir, "downloads", pluginName]

end data

/-! ## `internal/installs/installs.go` -/

namespace installs

/-- The function `Installed` of `installs.go`.  The result of `os.ReadDir` on a
path is the parameter `ReadDir` (entries and error).  The named result
`versions` starts as the nil slice, the empty list here. -/
def Installed (ReadDir : String → List os.DirEntry × Option GoError) (conf : config.Config)
    (plugin : plugins.Plugin) : List String × Option GoError :=
  let installDirectory := data.InstallDirectory conf.DataDir plugin.Name
  let (files, err) := ReadDir installDirectory
  match err with
  | some e =>
    if e.isPathError then ([], none)
    else ([], some e)
  | none =>
    let versions := files.foldl
      (fun versions file => if !file.IsDir then versions else versions ++ [file.Name]) []
    (versions, err)

/-- The function `InstallPath` of `installs.go`.  The encoder
`toolversions.FormatForFS`, which lives outside the sources, is the parameter
`FormatForFS`. -/
def InstallPath (FormatForFS : String → String → String) (conf : config.Config)
    (plugin : plugins.Plugin) (versionType version : String) : String :=
  if versionType == "path" then
    version
  else
    filepath.Join [data.InstallDirectory conf.DataDir plugin.Name, FormatForFS versionType version]

/-- The function `DownloadPath` of `installs.go`, with the encoder as a parameter. -/
def DownloadPath (FormatForFS : String → String → String) (conf : config.Config)
    (plugin : plugins.Plugin) (versionType version : String) : String :=
  if versionType == "path" then
    ""
  else
    filepath.Join [data.DownloadDirectory conf.DataDir plugin.Name, FormatForFS versionType version]

/-- The function `IsInstalled` of `installs.go`.  The error `os.Stat` returns
for a path is the parameter `Stat` (`none` is a nil error). -/
def IsInstalled (Stat : String → Option GoError) (FormatForFS : String → String → String)
    (conf : config.Config) (plugin : plugins.Plugin) (versionType version : String) : Bool :=
  let installDir := InstallPath FormatForFS conf plugin versionType version
  -- Check if version already installed
  let err := Stat installDir
  !os.IsNotExist err

end installs

/-! ## A file system for the packages that write to disk -/

/-- What a path of the data directory can hold: a directory, or a regular file
with its permission bits and its text.  The text is kept as the sequence of its
lines; the bytes of the file are the lines joined by single newlines. -/
inductive Node where
  | Dir
  | File (Mode : Nat) (Lines : List String)
  deriving DecidableEq, Repr

/-- The state of the file system: what each (cleaned) path holds, if anything. -/
abbrev FS := String → Option Node

/-- The empty file system. -/
def FS.empty : FS := fun _ => none

/-- The file system after `node` has been stored at `path`. -/
def FS.put (fs : FS) (path : String) (node : Node) : FS :=
  fun p => if p = path then some node else fs p

/-- The bytes `os.ReadFile` gives for a regular file: its lines joined by
single newlines, with no newline after the last one. -/
def FS.ReadFile (fs : FS) (path : String) : Option String :=
  match fs path with
  | some (.File _ lines) => some ("\n".intercalate lines)
  | _ => none

/-- The state after `os.RemoveAll path`: the path and everything below it is gone. -/
def FS.RemoveAll (fs : FS) (path : String) : FS :=
  fun p => if p = path ∨ (path ++ "/").data.isPrefixOf p.data then none else fs p

namespace syscall

/-- The errno `EISDIR`: is a directory. -/
def EISDIR : Nat := 21

end syscall

/-! ## Package `shims` (its source file is not among the sources) -/

namespace shims

/-- Modelled from the spec: the first line of every shim, from the shim file
format of section 6 (shims.go is not among the sources). -/
def shebang : String := "#!/usr/bin/env bash"

/-- Modelled from the spec: the header record of one (plugin, version) pair,
`# asdf-plugin: <pluginName> <version>` (shims.go is not among the sources). -/
def metadataLine (pluginName version : String) : String :=
  "# asdf-plugin: " ++ pluginName ++ " " ++ version

/-- Modelled from the spec: the fixed dispatch trailer,
`exec asdf exec "<executableName>" "$@"` (shims.go is not among the sources). -/
def trailer (shimName : String) : String :=
  "exec asdf exec \"" ++ shimName ++ "\" \"$@\""

/-- Modelled from the spec: whether a line is a header record, that is starts
with `# asdf-plugin: ` (shims.go is not among the sources). -/
def isMetadataLine (line : String) : Bool :=
  "# asdf-plugin: ".data.isPrefixOf line.data

/-- Modelled from the spec: the step of `Write` that inserts a new metadata
line before the existing metadata block (shims.go is not among the sources):
the lines before the first header record stay, then comes `line`, then the
block and what follows it.  The spec does not say where the line goes in a file
without any header record; here it then comes last. -/
def insertMetadata (line : String) (lines : List String) : List String :=
  lines.takeWhile (fun l => !isMetadataLine l) ++
    line :: lines.dropWhile (fun l => !isMetadataLine l)

/-- Modelled from the spec: `shims.Path` (shims.go is not among the sources):
pure path composition, `<dataDir>/shims/<shimName>`, as a path join. -/
def Path (conf : config.Config) (shimName : String) : String :=
  filepath.Join [conf.DataDir, "shims", shimName]

/-- Modelled from the spec: `shims.Write` (shims.go is not among the sources;
only its test is).  Section 4.4 of the spec: the shim name is the base name of
the executable path and the shim lives at `Path conf shimName`.  When nothing
is there the shim is created executable (0755) with the shebang, one header
record for `(plugin.Name, version)` and the trailer.  When a file is there and
already has the record of this exact pair it is left unchanged; otherwise the
record is inserted before the existing metadata block, every other line is
kept and the mode is preserved.  A path that cannot be read as a file gives the
file system error back and changes nothing.  The result is the new file system
and the error. -/
def Write (conf : config.Config) (plugin : plugins.Plugin) (version executablePath : String)
    (fs : FS) : FS × Option GoError :=
  let shimName := filepath.Base executablePath
  let shimPath := Path conf shimName
  match fs shimPath with
  | none =>
    (fs.put shimPath
      (.File 0o755 [shebang, metadataLine plugin.Name version, trailer shimName]), none)
  | some (.File mode lines) =>
    if metadataLine plugin.Name version ∈ lines then (fs, none)
    else (fs.put shimPath (.File mode (insertMetadata (metadataLine plugin.Name version) lines)),
      none)
  | some .Dir => (fs, some (.PathError "read" shimPath (.Errno syscall.EISDIR)))

end shims

/-! ## Package `plugins` (its source file is not among the sources) -/

namespace plugins

/-- Modelled from the spec: the errors of the plugin registry that section 7
and the tests name (plugins.go is not among the sources). -/
inductive PluginError where
  | InvalidName (name : String)
  | PluginAlreadyExists (name : String)
  | PluginNotFound (name : String)
  deriving DecidableEq, Repr

/-- Modelled from the spec: the fixed part of the invalid-name message
(plugins.go is not among the sources), as `TestAdd` and `TestRemove` expect it. -/
def invalidNameText : String :=
  "is invalid. Name may only contain lowercase letters, numbers, '_', and '-'"

/-- Modelled from the spec: the method `Error()` of the registry errors
(plugins.go is not among the sources).  The tests fix "Plugin named lua already
added", "no such plugin: nonexistant" and, for an invalid name, the text from
"is invalid" on; the name is put in front of that text. -/
def PluginError.Error : PluginError → String
  | .InvalidName name => name ++ " " ++ invalidNameText
  | .PluginAlreadyExists name => "Plugin named " ++ name ++ " already added"
  | .PluginNotFound name => "no such plugin: " ++ name

/-- Modelled from the spec: the character class `[a-z0-9_-]` of the name
pattern, as inclusive ranges (plugins.go is not among the sources). -/
def nameClass : List (Char × Char) := [('a', 'z'), ('0', '9'), ('_', '_'), ('-', '-')]

/-- Whether a character lies in one of the inclusive ranges of a character class. -/
def inClass (cls : List (Char × Char)) (c : Char) : Bool :=
  cls.any (fun r => decide (r.1 ≤ c) && decide (c ≤ r.2))

/-- A match of the anchored pattern `^[class]+$` against the whole text, as
Go regular expressions read it (`$` is the end of the text): at least one
character, and every character in the class. -/
def matchClassPlus (cls : List (Char × Char)) (text : List Char) : Bool :=
  !text.isEmpty && text.all (inClass cls)

/-- Modelled from the spec: `validatePluginName` (plugins.go is not among the
sources; only its test is): fails with the invalid-name error unless the name
matches `^[a-z0-9_-]+$`. -/
def validatePluginName (name : String) : Option PluginError :=
  if matchClassPlus nameClass name.data then none
  else some (.InvalidName name)

/-- Modelled from the spec: `PluginDirectory` (plugins.go is not among the
sources): `<dataDir>/plugins/<Name>`, as a path join. -/
def PluginDirectory (dataDir pluginName : String) : String :=
  filepath.Join [dataDir, "plugins", pluginName]

/-- Modelled from the spec: `PluginExists` (plugins.go is not among the
sources): true only if the path exists and is a directory; a regular file at
that path is not a plugin. -/
def PluginExists (dataDir pluginName : String) (fs : FS) : Bool :=
  match fs (PluginDirectory dataDir pluginName) with
  | some .Dir => true
  | _ => false

/-- Modelled from the spec: `plugins.Remove` (plugins.go is not among the
sources; only its test is).  Section 4.2 of the spec: the name is validated
first and a malformed name fails with the invalid-name error; then a missing
plugin directory fails with "no such plugin"; otherwise the plugin directory is
deleted recursively.  The result is the new file system and the error. -/
def Remove (conf : config.Config) (pluginName : String) (fs : FS) : FS × Option PluginError :=
  match validatePluginName pluginName with
  | some err => (fs, some err)
  | none =>
    if !PluginExists conf.DataDir pluginName fs then (fs, some (.PluginNotFound pluginName))
    else (fs.RemoveAll (PluginDirectory conf.DataDir pluginName), none)

end plugins

/-! ## Package `toolversions` (not among the sources) -/

namespace toolversions

end toolversions

/-! ## `cmd/main.go` -/

namespace cmd

/-- The `error` values the commands handle: the exit error `cli.Exit(message,
exitCode)` builds, an error of the plugin registry, or another error of the
core (loading the configuration, cloning), known by its text. -/
inductive CmdError where
  | Exit (message : String) (exitCode : Int)
  | Plugin (err : plugins.PluginError)
  | Other (text : String)
  deriving DecidableEq, Repr

/-- The method `Error()` of these error values, which `%s` prints. -/
def CmdError.Error : CmdError → String
  | .Exit message _ => message
  | .Plugin err => err.Error
  | .Other text => text

/-- What a command leaves behind: the state of the world the core acts on, the
lines written to the logger, and the returned error (`none` is nil). -/
structure Outcome (σ : Type) where
  world : σ
  logged : List String
  err : Option CmdError

/-- The function `pluginAddCommand` of `main.go`.  The function `plugins.Add`
is the parameter `Add`, acting on the state of the world; `logger` holds the
lines logged so far. -/
def pluginAddCommand {σ : Type} (Add : config.Config → String → String → σ → σ × Option CmdError)
    (conf : config.Config) (logger : List String) (pluginName pluginRepo : String) (world : σ) :
    Outcome σ :=
  if pluginName == "" then
    -- Invalid arguments
    ⟨world, logger, some (.Exit "usage: asdf plugin add <name> [<git-url>]" 1)⟩
  else if pluginRepo == "" then
    -- add from plugin repo: not implemented
    ⟨world, logger, some (.Exit "Not implemented yet" 1)⟩
  else
    match Add conf pluginName pluginRepo world with
    | (world1, some err) => ⟨world1, logger ++ ["error adding plugin: " ++ err.Error], none⟩
    | (world1, none) => ⟨world1, logger, none⟩

/-- The function `pluginRemoveCommand` of `main.go`.  The result of
`config.LoadConfig` and the function `plugins.Remove` are parameters. -/
def pluginRemoveCommand {σ : Type} (LoadConfig : config.Config × Option CmdError)
    (Remove : config.Config → String → σ → σ × Option CmdError)
    (logger : List String) (pluginName : String) (world : σ) : Outcome σ :=
  match LoadConfig with
  | (_, some err) => ⟨world, logger ++ ["error loading config: " ++ err.Error], some err⟩
  | (conf, none) =>
    match Remove conf pluginName world with
    | (world1, some err) => ⟨world1, logger ++ ["error removing plugin: " ++ err.Error], some err⟩
    | (world1, none) => ⟨world1, logger, none⟩

/-- The action of the `plugin add` subcommand in `Execute`: the configuration
is loaded, a failure is logged and returned, and otherwise the two first
arguments go to `pluginAddCommand` (a missing argument is the empty string). -/
def pluginAddAction {σ : Type} (LoadConfig : config.Config × Option CmdError)
    (Add : config.Config → String → String → σ → σ × Option CmdError)
    (logger : List String) (arg0 arg1 : String) (world : σ) : Outcome σ :=
  match LoadConfig with
  | (_, some err) => ⟨world, logger ++ ["error loading config: " ++ err.Error], some err⟩
  | (conf, none) => pluginAddCommand Add conf logger arg0 arg1 world

/-- The end of `Execute`: `err` is what `app.Run` gave back, the error of the
action it ran.  A non-nil error leads to `os.Exit(1)`; with a nil error
`Execute` returns and the process ends with status 0. -/
def Execute (err : Option CmdError) : Nat :=
  match err with
  | some _ => 1
  | none => 0

end cmd

/-! ## Theorems: `path/filepath` -/

/-- C1: for every conf, plugin and version, `InstallPath` with version type
"path" returns the version string unchanged, whatever the encoder, the data
directory and the plugin name are. -/
theorem installPath_path_verbatim (FormatForFS : String → String → String)
    (conf : config.Config) (plugin : plugins.Plugin) (version : String) :
    installs.InstallPath FormatForFS conf plugin "path" version = version := by
  simp [installs.InstallPath]

/-- C2: for every conf, plugin and version, `DownloadPath` with version type
"path" returns the empty string. -/
theorem downloadPath_path_empty (FormatForFS : String → String → String)
    (conf : config.Config) (plugin : plugins.Plugin) (version : String) :
    installs.DownloadPath FormatForFS conf plugin "path" version = "" := by
  simp [installs.DownloadPath]

/-- C3: for a version type other than "path", `InstallPath` is the path join
of the install directory (itself the join of the data directory, "installs"
and the plugin name) with the encoded version, and `DownloadPath` is the same
token joined under the download directory (data directory, "downloads",
plugin name). -/
theorem installPath_downloadPath_join (FormatForFS : String → String → String)
    (conf : config.Config) (plugin : plugins.Plugin) (versionType version : String)
    (hType : versionType ≠ "path") :
    installs.InstallPath FormatForFS conf plugin versionType version =
        filepath.Join [filepath.Join [conf.DataDir, "installs", plugin.Name],
          FormatForFS versionType version] ∧
      installs.DownloadPath FormatForFS conf plugin versionType version =
        filepath.Join [filepath.Join [conf.DataDir, "downloads", plugin.Name],
          FormatForFS versionType version] := by
  simp [installs.InstallPath, installs.DownloadPath, data.InstallDirectory,
    data.DownloadDirectory, hType]

/-- C3 at a concrete input: a "ref" version of plugin lua under /home/u/.asdf,
with an encoder that puts the type in front of the version. -/
theorem installPath_downloadPath_join_witness :
    "ref" ≠ "path" ∧
      installs.InstallPath (fun t v => t ++ "-" ++ v) ⟨"/home/u/.asdf"⟩
          ⟨"lua", "", "", ""⟩ "ref" "abc" = "/home/u/.asdf/installs/lua/ref-abc" ∧
      installs.DownloadPath (fun t v => t ++ "-" ++ v) ⟨"/home/u/.asdf"⟩
          ⟨"lua", "", "", ""⟩ "ref" "abc" = "/home/u/.asdf/downloads/lua/ref-abc" := by
  have h := installPath_downloadPath_join (fun t v => t ++ "-" ++ v) ⟨"/home/u/.asdf"⟩
    ⟨"lua", "", "", ""⟩ "ref" "abc" (by decide)
  refine ⟨by decide, ?_, ?_⟩
  · rw [h.1]; decide
  · rw [h.2]; decide

/-! ## Theorems: `Installed` and `IsInstalled` -/

/-- C4, as stated, fails: when reading /data/installs/lua fails with
permission denied (a `*fs.PathError` around `EACCES`, which is not a "does not
exist" error), `Installed` does not hand that error back: it returns the empty
list and a nil error. -/
theorem installed_permission_denied_not_returned :
    ¬ (os.IsNotExist (some (.PathError "open" "/data/installs/lua" (.Errno syscall.EACCES)))
          = false →
        installs.Installed
            (fun _ => ([], some (.PathError "open" "/data/installs/lua" (.Errno syscall.EACCES))))
            ⟨"/data"⟩ ⟨"lua", "/data/plugins/lua", "", ""⟩ =
          ([], some (.PathError "open" "/data/installs/lua" (.Errno syscall.EACCES)))) := by
  intro h
  have h2 := h (by decide)
  revert h2
  decide

/-- C4, amended: when reading the install directory fails with error `e`,
`Installed` returns the empty list, with a nil error if `e` is a
`*fs.PathError` (whatever it wraps: does not exist, permission denied, ...),
and with `e` itself as the error if `e` has any other dynamic type. -/
theorem installed_read_error (ReadDir : String → List os.DirEntry × Option GoError)
    (conf : config.Config) (plugin : plugins.Plugin) (e : GoError)
    (hRead : (ReadDir (data.InstallDirectory conf.DataDir plugin.Name)).2 = some e) :
    (e.isPathError = true → installs.Installed ReadDir conf plugin = ([], none)) ∧
      (e.isPathError = false → installs.Installed ReadDir conf plugin = ([], some e)) := by
  unfold installs.Installed
  constructor <;> intro hp <;> simp [hRead, hp]

/-- C4 amended, at concrete inputs: a missing directory gives the empty list
and no error. -/
theorem installed_read_error_witness :
    os.IsNotExist (some (.PathError "open" "/data/installs/lua" (.Errno syscall.ENOENT))) = true ∧
      installs.Installed
          (fun _ => ([], some (.PathError "open" "/data/installs/lua" (.Errno syscall.ENOENT))))
          ⟨"/data"⟩ ⟨"lua", "/data/plugins/lua", "", ""⟩ = ([], none) :=
  ⟨by decide,
    (installed_read_error
      (fun _ => ([], some (.PathError "open" "/data/installs/lua" (.Errno syscall.ENOENT))))
      ⟨"/data"⟩ ⟨"lua", "/data/plugins/lua", "", ""⟩
      (.PathError "open" "/data/installs/lua" (.Errno syscall.ENOENT)) rfl).1 rfl⟩

/-- C5: `IsInstalled` returns false exactly when the stat of the install path
fails with an error that `os.IsNotExist` recognises; when the stat succeeds
(nil error) or fails with any other error, it returns true. -/
theorem isInstalled_false_iff (Stat : String → Option GoError)
    (FormatForFS : String → String → String) (conf : config.Config) (plugin : plugins.Plugin)
    (versionType version : String) :
    (installs.IsInstalled Stat FormatForFS conf plugin versionType version = false ↔
        ∃ e, Stat (installs.InstallPath FormatForFS conf plugin versionType version) = some e ∧
          os.IsNotExist (some e) = true) ∧
      (Stat (installs.InstallPath FormatForFS conf plugin versionType version) = none →
        installs.IsInstalled Stat FormatForFS conf plugin versionType version = true) ∧
      (∀ e, Stat (installs.InstallPath FormatForFS conf plugin versionType version) = some e →
        os.IsNotExist (some e) = false →
        installs.IsInstalled Stat FormatForFS conf plugin versionType version = true) := by
  unfold installs.IsInstalled
  refine ⟨?_, ?_, ?_⟩
  · cases hs : Stat (installs.InstallPath FormatForFS conf plugin versionType version) with
    | none => simp [hs, os.IsNotExist]
    | some e => simp [hs]
  · intro hs
    simp [hs, os.IsNotExist]
  · intro e hs hne
    simp [hs, hne]

/-- C5 at concrete inputs: a stat that fails with `ENOENT` on the install path
of lua 1.1.0 gives false, and a stat that succeeds gives true. -/
theorem isInstalled_false_iff_witness :
    installs.IsInstalled
        (fun p => some (.PathError "stat" p (.Errno syscall.ENOENT))) (fun _ v => v)
        ⟨"/data"⟩ ⟨"lua", "/data/plugins/lua", "", ""⟩ "version" "1.1.0" = false ∧
      installs.IsInstalled (fun _ => none) (fun _ v => v)
        ⟨"/data"⟩ ⟨"lua", "/data/plugins/lua", "", ""⟩ "version" "1.1.0" = true :=
  ⟨(isInstalled_false_iff (fun p => some (.PathError "stat" p (.Errno syscall.ENOENT)))
      (fun _ v => v) ⟨"/data"⟩ ⟨"lua", "/data/plugins/lua", "", ""⟩ "version" "1.1.0").1.mpr
      ⟨_, rfl, by decide⟩,
    (isInstalled_false_iff (fun _ => none) (fun _ v => v) ⟨"/data"⟩
      ⟨"lua", "/data/plugins/lua", "", ""⟩ "version" "1.1.0").2.1 rfl⟩

/-! ## Theorems: shims -/

theorem FS.put_same (fs : FS) (path : String) (node : Node) : (fs.put path node) path = some node := by
  simp [FS.put]

theorem shims.mem_insertMetadata (line : String) (lines : List String) :
    line ∈ shims.insertMetadata line lines := by
  simp [shims.insertMetadata]

theorem shims.isMetadataLine_shebang : shims.isMetadataLine shims.shebang = false := by
  decide

theorem shims.isMetadataLine_metadataLine (pluginName version : String) :
    shims.isMetadataLine (shims.metadataLine pluginName version) = true := by
  simp [shims.isMetadataLine, shims.metadataLine, List.append_assoc]

theorem shims.metadataLine_ne_shebang (pluginName version : String) :
    shims.metadataLine pluginName version ≠ shims.shebang := by
  intro h
  have h2 := congrArg shims.isMetadataLine h
  rw [shims.isMetadataLine_metadataLine, shims.isMetadataLine_shebang] at h2
  exact Bool.noConfusion h2

theorem shims.metadataLine_ne_trailer (pluginName version shimName : String) :
    shims.metadataLine pluginName version ≠ shims.trailer shimName := by
  intro h
  have h2 := congrArg String.data h
  simp [shims.metadataLine, shims.trailer] at h2

theorem shims.isMetadataLine_trailer (shimName : String) :
    shims.isMetadataLine (shims.trailer shimName) = false := by
  simp [shims.isMetadataLine, shims.trailer, List.isPrefixOf]

theorem shims.shebang_ne_trailer (shimName : String) :
    shims.shebang ≠ shims.trailer shimName := by
  intro h
  have h2 := congrArg String.data h
  simp [shims.shebang, shims.trailer] at h2

theorem plugins.pluginDirectory_test :
    plugins.PluginDirectory "~/.asdf/" "lua" = "~/.asdf/plugins/lua" := by
  decide

theorem shims.metadataLine_version_inj (pluginName v1 v2 : String)
    (h : shims.metadataLine pluginName v1 = shims.metadataLine pluginName v2) : v1 = v2 := by
  have h2 := congrArg String.data h
  simp only [shims.metadataLine, String.data_append, List.append_cancel_left_eq] at h2
  exact String.ext h2

/-- C6: `Write` is idempotent.  From any state of the file system (the shim
absent, written by earlier calls, or anything else), a second `Write` with the
same arguments leaves the whole file system, and so the bytes of the shim, as
the first call left them, and gives the same error result. -/
theorem write_idempotent (conf : config.Config) (plugin : plugins.Plugin)
    (version executablePath : String) (fs : FS) :
    shims.Write conf plugin version executablePath
        (shims.Write conf plugin version executablePath fs).1 =
      shims.Write conf plugin version executablePath fs ∧
    (shims.Write conf plugin version executablePath
        (shims.Write conf plugin version executablePath fs).1).1.ReadFile
        (shims.Path conf (filepath.Base executablePath)) =
      (shims.Write conf plugin version executablePath fs).1.ReadFile
        (shims.Path conf (filepath.Base executablePath)) := by
  have key : shims.Write conf plugin version executablePath
        (shims.Write conf plugin version executablePath fs).1 =
      shims.Write conf plugin version executablePath fs := by
    cases hfs : fs (shims.Path conf (filepath.Base executablePath)) with
    | none =>
      simp [shims.Write, hfs, FS.put_same]
    | some node =>
      cases node with
      | Dir => simp [shims.Write, hfs]
      | File mode lines =>
        by_cases hmem : shims.metadataLine plugin.Name version ∈ lines
        · simp [shims.Write, hfs, hmem]
        · simp [shims.Write, hfs, hmem, FS.put_same, shims.mem_insertMetadata]
  exact ⟨key, by rw [key]⟩

/-- C7: starting with no shim, `Write` for version v1 and then for a distinct
version v2 of the same plugin and executable gives a shim whose lines are the
shebang, the record of v2, the record of v1 and the trailer, in this order;
its bytes are these four lines joined by newlines.  Exactly two of the lines
are header records and exactly one is the trailer. -/
theorem write_two_versions (conf : config.Config) (plugin : plugins.Plugin)
    (v1 v2 executablePath : String) (fs : FS)
    (hAbsent : fs (shims.Path conf (filepath.Base executablePath)) = none)
    (hDistinct : v1 ≠ v2) :
    (shims.Write conf plugin v2 executablePath
        (shims.Write conf plugin v1 executablePath fs).1).1
        (shims.Path conf (filepath.Base executablePath)) =
      some (.File 0o755 ["#!/usr/bin/env bash",
        "# asdf-plugin: " ++ plugin.Name ++ " " ++ v2,
        "# asdf-plugin: " ++ plugin.Name ++ " " ++ v1,
        "exec asdf exec \"" ++ filepath.Base executablePath ++ "\" \"$@\""]) ∧
    (shims.Write conf plugin v2 executablePath
        (shims.Write conf plugin v1 executablePath fs).1).1.ReadFile
        (shims.Path conf (filepath.Base executablePath)) =
      some ("#!/usr/bin/env bash\n# asdf-plugin: " ++ plugin.Name ++ " " ++ v2 ++
        "\n# asdf-plugin: " ++ plugin.Name ++ " " ++ v1 ++
        "\nexec asdf exec \"" ++ filepath.Base executablePath ++ "\" \"$@\"") ∧
    (["#!/usr/bin/env bash",
        "# asdf-plugin: " ++ plugin.Name ++ " " ++ v2,
        "# asdf-plugin: " ++ plugin.Name ++ " " ++ v1,
        "exec asdf exec \"" ++ filepath.Base executablePath ++ "\" \"$@\""].filter
        shims.isMetadataLine).length = 2 ∧
    (["#!/usr/bin/env bash",
        "# asdf-plugin: " ++ plugin.Name ++ " " ++ v2,
        "# asdf-plugin: " ++ plugin.Name ++ " " ++ v1,
        "exec asdf exec \"" ++ filepath.Base executablePath ++ "\" \"$@\""].filter
        (fun l => l == shims.trailer (filepath.Base executablePath))).length = 1 := by
  have hne : shims.metadataLine plugin.Name v2 ≠ shims.metadataLine plugin.Name v1 :=
    fun h => hDistinct (shims.metadataLine_version_inj plugin.Name v2 v1 h).symm
  have hmem : shims.metadataLine plugin.Name v2 ∉
      [shims.shebang, shims.metadataLine plugin.Name v1,
        shims.trailer (filepath.Base executablePath)] := by
    simp [hne, shims.metadataLine_ne_shebang, shims.metadataLine_ne_trailer]
  have hins : shims.insertMetadata (shims.metadataLine plugin.Name v2)
      [shims.shebang, shims.metadataLine plugin.Name v1,
        shims.trailer (filepath.Base executablePath)] =
      [shims.shebang, shims.metadataLine plugin.Name v2, shims.metadataLine plugin.Name v1,
        shims.trailer (filepath.Base executablePath)] := by
    simp [shims.insertMetadata, shims.isMetadataLine_shebang, shims.isMetadataLine_metadataLine]
  have hfile : (shims.Write conf plugin v2 executablePath
        (shims.Write conf plugin v1 executablePath fs).1).1
        (shims.Path conf (filepath.Base executablePath)) =
      some (.File 0o755 [shims.shebang, shims.metadataLine plugin.Name v2,
        shims.metadataLine plugin.Name v1, shims.trailer (filepath.Base executablePath)]) := by
    simp [shims.Write, hAbsent, FS.put_same, hmem, hins]
  have hm1 := shims.isMetadataLine_metadataLine plugin.Name v1
  have hm2 := shims.isMetadataLine_metadataLine plugin.Name v2
  have ht := shims.isMetadataLine_trailer (filepath.Base executablePath)
  have hs := shims.isMetadataLine_shebang
  have hst := shims.shebang_ne_trailer (filepath.Base executablePath)
  have ht1 := shims.metadataLine_ne_trailer plugin.Name v1 (filepath.Base executablePath)
  have ht2 := shims.metadataLine_ne_trailer plugin.Name v2 (filepath.Base executablePath)
  simp only [shims.metadataLine, shims.trailer, shims.shebang] at hm1 hm2 ht hs hst ht1 ht2
  refine ⟨hfile, ?_, ?_, ?_⟩
  · rw [FS.ReadFile, hfile]
    simp only [shims.shebang, shims.metadataLine, shims.trailer, String.intercalate,
      String.intercalate.go, Option.some.injEq]
    apply String.ext
    simp only [String.data_append, List.append_assoc]
    rfl
  · simp [List.filter, hm1, hm2, ht, hs]
  · have b0 := beq_eq_false_iff_ne.mpr hst
    have b1 := beq_eq_false_iff_ne.mpr ht1
    have b2 := beq_eq_false_iff_ne.mpr ht2
    simp only [List.filter, shims.trailer, b0, b1, b2, beq_self_eq_true, List.length_singleton]

/-- C7 at the inputs of the test: plugin lua, versions 1.1.0 then 2.0.0,
executable dummy, on an empty file system. -/
theorem write_two_versions_witness :
    FS.empty (shims.Path ⟨"/tmp/data"⟩ (filepath.Base "/tmp/data/installs/lua/1.1.0/bin/dummy"))
        = none ∧
      "1.1.0" ≠ "2.0.0" ∧
      (shims.Write ⟨"/tmp/data"⟩ ⟨"lua", "/tmp/data/plugins/lua", "", ""⟩ "2.0.0"
          "/tmp/data/installs/lua/1.1.0/bin/dummy"
          (shims.Write ⟨"/tmp/data"⟩ ⟨"lua", "/tmp/data/plugins/lua", "", ""⟩ "1.1.0"
            "/tmp/data/installs/lua/1.1.0/bin/dummy" FS.empty).1).1.ReadFile
          "/tmp/data/shims/dummy" =
        some ("#!/usr/bin/env bash\n# asdf-plugin: lua 2.0.0\n# asdf-plugin: lua 1.1.0\n" ++
          "exec asdf exec \"dummy\" \"$@\"") := by
  have h := (write_two_versions ⟨"/tmp/data"⟩ ⟨"lua", "/tmp/data/plugins/lua", "", ""⟩
    "1.1.0" "2.0.0" "/tmp/data/installs/lua/1.1.0/bin/dummy" FS.empty rfl (by decide)).2.1
  have hp : shims.Path ⟨"/tmp/data"⟩ (filepath.Base "/tmp/data/installs/lua/1.1.0/bin/dummy") =
      "/tmp/data/shims/dummy" := by decide
  have hb : filepath.Base "/tmp/data/installs/lua/1.1.0/bin/dummy" = "dummy" := by decide
  refine ⟨rfl, by decide, ?_⟩
  rw [hp] at h
  rw [h, hb]
  decide

/-- C8: when nothing is at the shim path, `Write` creates there (at the join of
the data directory, "shims" and the base name of the executable) an executable
file whose lines are the shebang, the record `# asdf-plugin: <name> <version>`
and the trailer, and whose bytes are these three lines joined by single
newlines with no trailing newline; no error is returned. -/
theorem write_creates_shim (conf : config.Config) (plugin : plugins.Plugin)
    (version executablePath : String) (fs : FS)
    (hAbsent : fs (shims.Path conf (filepath.Base executablePath)) = none) :
    shims.Path conf (filepath.Base executablePath) =
      filepath.Join [conf.DataDir, "shims", filepath.Base executablePath] ∧
    (shims.Write conf plugin version executablePath fs).2 = none ∧
    (shims.Write conf plugin version executablePath fs).1
        (shims.Path conf (filepath.Base executablePath)) =
      some (.File 0o755 ["#!/usr/bin/env bash",
        "# asdf-plugin: " ++ plugin.Name ++ " " ++ version,
        "exec asdf exec \"" ++ filepath.Base executablePath ++ "\" \"$@\""]) ∧
    (shims.Write conf plugin version executablePath fs).1.ReadFile
        (shims.Path conf (filepath.Base executablePath)) =
      some ("#!/usr/bin/env bash\n# asdf-plugin: " ++ plugin.Name ++ " " ++ version ++
        "\nexec asdf exec \"" ++ filepath.Base executablePath ++ "\" \"$@\"") := by
  have hfile : (shims.Write conf plugin version executablePath fs).1
        (shims.Path conf (filepath.Base executablePath)) =
      some (.File 0o755 [shims.shebang, shims.metadataLine plugin.Name version,
        shims.trailer (filepath.Base executablePath)]) := by
    simp [shims.Write, hAbsent, FS.put_same]
  refine ⟨rfl, by simp [shims.Write, hAbsent], hfile, ?_⟩
  rw [FS.ReadFile, hfile]
  simp only [shims.shebang, shims.metadataLine, shims.trailer, String.intercalate,
    String.intercalate.go, Option.some.injEq]
  apply String.ext
  simp only [String.data_append, List.append_assoc]
  rfl

/-- C8 at the inputs of the test: plugin lua, version 1.1.0, executable dummy,
on an empty file system. -/
theorem write_creates_shim_witness :
    FS.empty (shims.Path ⟨"/tmp/data"⟩ (filepath.Base "/tmp/data/installs/lua/1.1.0/bin/dummy"))
        = none ∧
      (shims.Write ⟨"/tmp/data"⟩ ⟨"lua", "/tmp/data/plugins/lua", "", ""⟩ "1.1.0"
          "/tmp/data/installs/lua/1.1.0/bin/dummy" FS.empty).1.ReadFile "/tmp/data/shims/dummy" =
        some "#!/usr/bin/env bash\n# asdf-plugin: lua 1.1.0\nexec asdf exec \"dummy\" \"$@\"" := by
  have h := (write_creates_shim ⟨"/tmp/data"⟩ ⟨"lua", "/tmp/data/plugins/lua", "", ""⟩
    "1.1.0" "/tmp/data/installs/lua/1.1.0/bin/dummy" FS.empty rfl).2.2.2
  have hp : shims.Path ⟨"/tmp/data"⟩ (filepath.Base "/tmp/data/installs/lua/1.1.0/bin/dummy") =
      "/tmp/data/shims/dummy" := by decide
  have hb : filepath.Base "/tmp/data/installs/lua/1.1.0/bin/dummy" = "dummy" := by decide
  refine ⟨rfl, ?_⟩
  rw [hp] at h
  rw [h, hb]
  decide

/-! ## Theorems: the plugin registry -/

theorem plugins.inClass_nameClass (c : Char) :
    plugins.inClass plugins.nameClass c = true ↔
      (c.isLower = true ∨ c.isDigit = true ∨ c = '_' ∨ c = '-') := by
  have h1 : (('_' : Char) ≤ c ∧ c ≤ '_') ↔ c = '_' :=
    ⟨fun h => Char.le_antisymm h.2 h.1, fun h => by subst h; exact ⟨Char.le_refl _, Char.le_refl _⟩⟩
  have h2 : (('-' : Char) ≤ c ∧ c ≤ '-') ↔ c = '-' :=
    ⟨fun h => Char.le_antisymm h.2 h.1, fun h => by subst h; exact ⟨Char.le_refl _, Char.le_refl _⟩⟩
  have h3 : (('a' : Char) ≤ c ∧ c ≤ 'z') ↔ c.isLower = true := by
    simp [Char.isLower, Char.le_def]
  have h4 : (('0' : Char) ≤ c ∧ c ≤ '9') ↔ c.isDigit = true := by
    simp [Char.isDigit, Char.le_def]
  simp [plugins.inClass, plugins.nameClass, h1, h2, h3, h4]

/-- C9: name validation accepts a name exactly when it is non-empty and every
character is a lowercase ASCII letter, a digit, an underscore or a hyphen;
every other name is rejected with the invalid-name error, whose message
contains "is invalid. Name may only contain lowercase letters, numbers, '_',
and '-'".  The names of the tests (with an uppercase letter, a space, a caret,
a percent sign, a slash) are rejected and "lua" is accepted. -/
theorem validatePluginName_accepts_iff (name : String) :
    (plugins.validatePluginName name = none ↔
      name ≠ "" ∧
        ∀ c ∈ name.data, c.isLower = true ∨ c.isDigit = true ∨ c = '_' ∨ c = '-') ∧
    (plugins.validatePluginName name ≠ none →
      plugins.validatePluginName name = some (.InvalidName name) ∧
        "is invalid. Name may only contain lowercase letters, numbers, '_', and '-'".data <:+:
          (plugins.PluginError.InvalidName name).Error.data) ∧
    plugins.validatePluginName "lua" = none ∧
    plugins.validatePluginName "PLUGIN_NAME" = some (.InvalidName "PLUGIN_NAME") ∧
    plugins.validatePluginName "plugin name" = some (.InvalidName "plugin name") ∧
    plugins.validatePluginName "plugin^name" = some (.InvalidName "plugin^name") ∧
    plugins.validatePluginName "plugin%name" = some (.InvalidName "plugin%name") ∧
    plugins.validatePluginName "foo/bar/baz" = some (.InvalidName "foo/bar/baz") := by
  refine ⟨?_, ?_, by decide, by decide, by decide, by decide, by decide, by decide⟩
  · have hne : name ≠ "" ↔ name.data ≠ [] := by
      constructor
      · intro h hd
        exact h (String.ext hd)
      · intro h hn
        exact h (by rw [hn])
    have hm : plugins.matchClassPlus plugins.nameClass name.data = true ↔
        name.data ≠ [] ∧
          ∀ c ∈ name.data, c.isLower = true ∨ c.isDigit = true ∨ c = '_' ∨ c = '-' := by
      simp only [plugins.matchClassPlus, Bool.and_eq_true, Bool.not_eq_true', List.isEmpty_eq_false,
        List.all_eq_true, plugins.inClass_nameClass]
    rw [hne, ← hm]
    simp [plugins.validatePluginName]
  · intro hbad
    constructor
    · simp only [plugins.validatePluginName] at hbad ⊢
      split
      · rename_i hm
        simp [hm] at hbad
      · rfl
    · exact ⟨name.data ++ [' '], [], by
        simp [plugins.PluginError.Error, plugins.invalidNameText, List.append_assoc]⟩

/-- C9 at the name "PLUGIN_NAME" of the tests: it is rejected, with the
invalid-name error, whose message contains the expected text. -/
theorem validatePluginName_accepts_iff_witness :
    plugins.validatePluginName "PLUGIN_NAME" ≠ none ∧
      plugins.validatePluginName "PLUGIN_NAME" = some (.InvalidName "PLUGIN_NAME") ∧
      "is invalid. Name may only contain lowercase letters, numbers, '_', and '-'".data <:+:
        (plugins.PluginError.InvalidName "PLUGIN_NAME").Error.data :=
  ⟨by decide, (validatePluginName_accepts_iff "PLUGIN_NAME").2.1 (by decide)⟩

/-- C10: for a malformed name `Remove` fails with the invalid-name error, not
with "no such plugin", whatever the file system holds (with or without a
directory of that name), and the file system is left as it was. -/
theorem remove_malformed_name (conf : config.Config) (pluginName : String) (fs : FS)
    (hBad : plugins.validatePluginName pluginName ≠ none) :
    plugins.Remove conf pluginName fs = (fs, some (.InvalidName pluginName)) ∧
      (plugins.Remove conf pluginName fs).2 ≠ some (.PluginNotFound pluginName) := by
  have hv : plugins.validatePluginName pluginName = some (.InvalidName pluginName) := by
    simp only [plugins.validatePluginName] at hBad ⊢
    split
    · rename_i hm
      simp [hm] at hBad
    · rfl
  have hr : plugins.Remove conf pluginName fs = (fs, some (.InvalidName pluginName)) := by
    simp [plugins.Remove, hv]
  exact ⟨hr, by simp [hr]⟩

/-- C10 at the name of the test, "foo/bar/baz", with a directory of that name
in place under the plugin directory: the directory exists, and `Remove` still
reports the invalid name and changes nothing. -/
theorem remove_malformed_name_witness :
    plugins.validatePluginName "foo/bar/baz" ≠ none ∧
      plugins.PluginExists "/data" "foo/bar/baz"
        (FS.empty.put "/data/plugins/foo/bar/baz" .Dir) = true ∧
      plugins.Remove ⟨"/data"⟩ "foo/bar/baz" (FS.empty.put "/data/plugins/foo/bar/baz" .Dir) =
        (FS.empty.put "/data/plugins/foo/bar/baz" .Dir,
          some (.InvalidName "foo/bar/baz")) :=
  ⟨by decide, by decide,
    (remove_malformed_name ⟨"/data"⟩ "foo/bar/baz"
      (FS.empty.put "/data/plugins/foo/bar/baz" .Dir) (by decide)).1⟩

/-! ## Theorems: the listing of installed versions -/

theorem installs.foldl_versions (files : List os.DirEntry) (acc : List String) :
    files.foldl (fun versions file => if !file.IsDir then versions else versions ++ [file.Name])
        acc =
      acc ++ (files.filter (fun file => file.IsDir)).map (fun file => file.Name) := by
  induction files generalizing acc with
  | nil => simp
  | cons file rest ih =>
    rw [List.foldl_cons, ih]
    cases hd : file.IsDir <;> simp [List.filter, hd]

/-- C13: when reading the install directory succeeds with the entries `files`,
`Installed` returns a nil error and the names of exactly those entries that are
directories, each once and in the order of the listing. -/
theorem installed_lists_directories (ReadDir : String → List os.DirEntry × Option GoError)
    (conf : config.Config) (plugin : plugins.Plugin) (files : List os.DirEntry)
    (hRead : ReadDir (data.InstallDirectory conf.DataDir plugin.Name) = (files, none)) :
    installs.Installed ReadDir conf plugin =
      ((files.filter (fun file => file.IsDir)).map (fun file => file.Name), none) := by
  simp only [installs.Installed, hRead, installs.foldl_versions, List.nil_append]

/-- C13 at a concrete listing: two version directories with a regular file
between them. -/
theorem installed_lists_directories_witness :
    installs.Installed
        (fun _ => ([⟨"1.1.0", true⟩, ⟨"notes.txt", false⟩, ⟨"2.0.0", true⟩], none))
        ⟨"/data"⟩ ⟨"lua", "/data/plugins/lua", "", ""⟩ = (["1.1.0", "2.0.0"], none) :=
  installed_lists_directories
    (fun _ => ([⟨"1.1.0", true⟩, ⟨"notes.txt", false⟩, ⟨"2.0.0", true⟩], none))
    ⟨"/data"⟩ ⟨"lua", "/data/plugins/lua", "", ""⟩
    [⟨"1.1.0", true⟩, ⟨"notes.txt", false⟩, ⟨"2.0.0", true⟩] rfl

/-! ## Theorems: the commands -/

theorem cmd.pluginAddCommand_err_none {σ : Type}
    (Add : config.Config → String → String → σ → σ × Option cmd.CmdError)
    (conf : config.Config) (logger : List String) (pluginName pluginRepo : String) (world : σ)
    (hName : pluginName ≠ "") (hRepo : pluginRepo ≠ "") :
    (cmd.pluginAddCommand Add conf logger pluginName pluginRepo world).err = none := by
  unfold cmd.pluginAddCommand
  simp only [beq_iff_eq, hName, hRepo, if_false]
  split <;> rfl

/-- C11, the code at the failing input: adding plugin lua a second time, where
`plugins.Add` fails with "Plugin named lua already added".  `pluginAddCommand`
logs the error but returns nil, so `Execute` ends with status 0; for a failing
`plugins.Remove` the sibling `pluginRemoveCommand` logs and returns the error,
and `Execute` ends with status 1. -/
theorem pluginAddCommand_swallows_add_error :
    (cmd.pluginAddCommand (fun _ name _ (w : Unit) => (w, some (.Plugin (.PluginAlreadyExists name))))
        ⟨"/data"⟩ [] "lua" "https://github.com/Stratus3D/asdf-lua" ()).logged =
        ["error adding plugin: Plugin named lua already added"] ∧
      (cmd.pluginAddCommand
        (fun _ name _ (w : Unit) => (w, some (.Plugin (.PluginAlreadyExists name))))
        ⟨"/data"⟩ [] "lua" "https://github.com/Stratus3D/asdf-lua" ()).err = none ∧
      cmd.Execute (cmd.pluginAddAction (⟨"/data"⟩, none)
        (fun _ name _ (w : Unit) => (w, some (.Plugin (.PluginAlreadyExists name))))
        [] "lua" "https://github.com/Stratus3D/asdf-lua" ()).err = 0 ∧
      (cmd.pluginRemoveCommand (⟨"/data"⟩, none)
        (fun _ name (w : Unit) => (w, some (.Plugin (.PluginNotFound name))))
        [] "nonexistant" ()).err = some (.Plugin (.PluginNotFound "nonexistant")) ∧
      cmd.Execute (cmd.pluginRemoveCommand (⟨"/data"⟩, none)
        (fun _ name (w : Unit) => (w, some (.Plugin (.PluginNotFound name))))
        [] "nonexistant" ()).err = 1 := by
  refine ⟨by decide, by decide, by decide, by decide, by decide⟩

/-- C14: `pluginAddCommand` reaches `plugins.Add` only when both the name and
the repository are non-empty.  For an empty name it returns the exit error with
code 1 and the usage message, whatever the repository is; for a non-empty name
with an empty repository it returns the exit error with code 1 and "Not
implemented yet".  In both cases the world is left as it was and nothing is
logged, whatever `plugins.Add` would do. -/
theorem pluginAddCommand_argument_errors {σ : Type}
    (Add : config.Config → String → String → σ → σ × Option cmd.CmdError)
    (conf : config.Config) (logger : List String) (world : σ) :
    (∀ pluginRepo : String,
      cmd.pluginAddCommand Add conf logger "" pluginRepo world =
        ⟨world, logger, some (.Exit "usage: asdf plugin add <name> [<git-url>]" 1)⟩) ∧
    (∀ pluginName : String, pluginName ≠ "" →
      cmd.pluginAddCommand Add conf logger pluginName "" world =
        ⟨world, logger, some (.Exit "Not implemented yet" 1)⟩) := by
  constructor
  · intro pluginRepo
    simp [cmd.pluginAddCommand]
  · intro pluginName hName
    simp [cmd.pluginAddCommand, hName]

/-- C14 at concrete inputs, with a `plugins.Add` that would record the plugin
in the world: for the name lua and no repository nothing is recorded. -/
theorem pluginAddCommand_argument_errors_witness :
    "lua" ≠ "" ∧
      (cmd.pluginAddCommand (fun _ name _ (w : List String) => (name :: w, none))
        ⟨"/data"⟩ [] "lua" "" []).world = [] ∧
      (cmd.pluginAddCommand (fun _ name _ (w : List String) => (name :: w, none))
        ⟨"/data"⟩ [] "lua" "" []).err = some (.Exit "Not implemented yet" 1) := by
  have h := (pluginAddCommand_argument_errors
    (fun _ name _ (w : List String) => (name :: w, none)) ⟨"/data"⟩ [] []).2 "lua" (by decide)
  exact ⟨by decide, by rw [h], by rw [h]⟩

/-! ## Theorems: joining a directory with one path element -/

section CleanElement

open filepath

end CleanElement

/-! ## Theorems: the version encoding -/

end Asdf
